import Mathlib

/-!
Verification development for the IHateDNS server (`ihatedns.py`).

The Python source is shallowly embedded: every textual value is a `List Char`
(so that Python's `str.lower`/`str.upper`/`split`/`join` become transparent
list operations), wire datagrams are `List Nat` byte lists, the sqlite table
`record` is a `List Row` with `REPLACE INTO` semantics, and the exception flow
of the resolver is an explicit `Except` value.  Behaviour of the external
`dnspython` library is modelled at the granularity the server observes it:
`dns.rrset.from_text` canonicalizes class/type mnemonics to upper case and
qualifies the name, `Message.to_wire` produces a 12-byte header (id, flags,
section counts) followed by the encoded sections, and `from_wire` is a strict
parser that fails on anything that is not a well-formed message encoding.
-/

namespace IHateDNS

/-- Python strings are modelled as explicit character lists. -/
abbrev Str := List Char

/-- `RDATA_SEP = ","` (line 21 of the source): the separator used to join and
split the textual rdata values stored in the single `rdatas` column. -/
def RDATA_SEP : Char := ','

/-- `DEFAULT_TTL = 60` (line 22 of the source). -/
def DEFAULT_TTL : Nat := 60

/-- Python `str.upper` on the modelled strings. -/
def strUpper (s : Str) : Str := s.map Char.toUpper

/-- Python `str.lower` on the modelled strings. -/
def strLower (s : Str) : Str := s.map Char.toLower

/-- One row of the sqlite `record` table: columns
`name, ttl, rdclass, rdtype, rdatas` (the last is the separator-joined
textual rdata). -/
structure Row where
  name : Str
  ttl : Nat
  rdclass : Str
  rdtype : Str
  rdatas : Str
deriving DecidableEq, Repr

/-- A `dns.rrset.RRset` at the granularity the server uses it: owner name,
ttl, class and type mnemonics (canonical upper-case text), and the ordered
list of textual rdata values. -/
structure RRset where
  name : Str
  ttl : Nat
  rdclass : Str
  rdtype : Str
  rdatas : List Str
deriving DecidableEq, Repr

/-- `absolutify` (lines 51-54): append a trailing dot unless the name already
ends with one. -/
def absolutify (name : Str) : Str :=
  if name.getLast? = some '.' then name else name ++ ['.']

/-- Model of `dns.rrset.from_text(name, ttl, rdclass, rdtype, *rdatas)` at the
granularity the server observes: the name is made fully qualified (dnspython
parses it against the root origin), the class and type mnemonics are
canonicalized to upper case (`dns.rdataclass.from_text` / `dns.rdatatype.from_text`
are case-insensitive and `to_text` returns the canonical upper-case form), and
the textual rdata values are kept verbatim. -/
def rrset_from_text (name : Str) (ttl : Nat) (rdclass rdtype : Str)
    (rdatas : List Str) : RRset :=
  { name := absolutify name, ttl := ttl, rdclass := strUpper rdclass,
    rdtype := strUpper rdtype, rdatas := rdatas }

/-- `row_to_rrset` (lines 26-28): rebuild the RRset from a table row by
splitting the joined rdata column on `RDATA_SEP`. -/
def row_to_rrset (row : Row) : RRset :=
  rrset_from_text row.name row.ttl row.rdclass row.rdtype
    (row.rdatas.splitOn RDATA_SEP)

/-- `rrset_to_row` (lines 30-37): `rrset.name.to_text()` preserves the letter
case of the stored name, the class/type mnemonics are rendered canonically
(upper case), and the rdata values are joined on `RDATA_SEP`. -/
def rrset_to_row (rrset : RRset) : Row :=
  { name := rrset.name, ttl := rrset.ttl, rdclass := strUpper rrset.rdclass,
    rdtype := strUpper rrset.rdtype,
    rdatas := [RDATA_SEP].intercalate rrset.rdatas }

/-- The sqlite `record` table, one `Row` per stored RRset. -/
abbrev Db := List Row

/-- `query_db` (lines 39-49): `SELECT ... WHERE name=? AND rdclass=? AND rdtype=?`
with parameters `(name.lower(), rdclass.upper(), rdtype.upper())`; sqlite TEXT
equality is byte-wise, so the stored strings are compared exactly against the
normalized query strings.  `fetchone` is the first matching row. -/
def query_db (db : Db) (name rdclass rdtype : Str) : Option RRset :=
  (db.find? (fun r =>
      r.name == strLower name && r.rdclass == strUpper rdclass &&
      r.rdtype == strUpper rdtype)).map row_to_rrset

/-- The `(name, rdclass, rdtype)` triple that `PRIMARY KEY(name, rdclass, rdtype)`
keys the `record` table on. -/
def rowKey (r : Row) : Str × Str × Str := (r.name, r.rdclass, r.rdtype)

/-- `REPLACE INTO record ... VALUES (...)` against
`PRIMARY KEY(name, rdclass, rdtype)`: delete any row with the same key, then
insert the new row. -/
def replace_into (db : Db) (row : Row) : Db :=
  db.filter (fun r => !(rowKey r == rowKey row)) ++ [row]

/-- The store-level `put` used by the administrative API (lines 136-144):
`REPLACE INTO` of `rrset_to_row rrset`. -/
def put_rrset (db : Db) (rrset : RRset) : Db := replace_into db (rrset_to_row rrset)

/-- A DNS question: `(name, class, type)` in the textual form the server
extracts from it (`question.name.to_text()` etc., lines 56-59). -/
structure Question where
  name : Str
  rdclass : Str
  rdtype : Str
deriving DecidableEq, Repr

/-- The response codes the server can produce. -/
inductive Rcode
  | NOERROR
  | SERVFAIL
  | NXDOMAIN
deriving DecidableEq, Repr

/-- Wire numeric value of the response code. -/
def Rcode.toNat : Rcode → Nat
  | .NOERROR => 0
  | .SERVFAIL => 2
  | .NXDOMAIN => 3

/-- A `dns.message.Message` at the granularity the server uses it:
transaction id, the QR / TC / RD flag bits, response code, question section
and answer section. -/
structure Message where
  id : Nat
  qr : Bool
  tc : Bool
  rd : Bool
  rcode : Rcode
  question : List Question
  answer : List RRset
deriving DecidableEq, Repr

/-- The exceptions that resolution of one question can raise inside the `try`
block of `handle_dns_query`: the `KeyError` raised by `answer_question` on a
store miss, and any other (unexpected) exception, carried abstractly with its
message. -/
inductive DnsFault
  | keyError
  | other (msg : Str)
deriving DecidableEq, Repr

/-- `answer_question` (lines 56-63): look the question up in the store and
raise `KeyError` on a miss. -/
def answer_question (db : Db) (q : Question) : Except DnsFault RRset :=
  match query_db db q.name q.rdclass q.rdtype with
  | none => .error .keyError
  | some rrset => .ok rrset

/-- The list comprehension `[answer_question(db, q) for q in query.question]`
inside the `try` block: questions are resolved left to right and the first
exception aborts the whole batch. -/
def resolveAll (resolve : Question → Except DnsFault RRset) :
    List Question → Except DnsFault (List RRset)
  | [] => .ok []
  | q :: qs =>
    match resolve q with
    | .error e => .error e
    | .ok r =>
      match resolveAll resolve qs with
      | .error e => .error e
      | .ok rs => .ok (r :: rs)

/-- `dns.message.make_response(query)`: copy the id and the question section,
set QR, copy RD, clear the remaining flag bits (in particular TC), start from
response code NOERROR and an empty answer section. -/
def make_response (query : Message) : Message :=
  { id := query.id, qr := true, tc := false, rd := query.rd,
    rcode := .NOERROR, question := query.question, answer := [] }

/-- `handle_dns_query` (lines 65-75), parametrized by the per-question
resolution outcome (`answer_question db` in the source; keeping the resolver
abstract models the fact that in Python *any* exception may dynamically arise
while resolving and is caught by the bare `except:`): on success the answer
section receives one RRset per question, a `KeyError` yields NXDOMAIN, and
any other exception yields SERVFAIL, in both cases leaving the answer section
of `make_response` empty. -/
def handle_dns_query (resolve : Question → Except DnsFault RRset)
    (query : Message) : Message :=
  let response := make_response query
  match resolveAll resolve query.question with
  | .ok answers => { response with answer := answers }
  | .error .keyError => { response with rcode := .NXDOMAIN }
  | .error (.other _) => { response with rcode := .SERVFAIL }

/-! ## Wire encoding (model of `dns.message.Message.to_wire` / `from_wire`) -/

/-- A 16-bit quantity as two big-endian bytes (Python
`int.to_bytes(2)`, whose default byte order is big-endian). -/
def encodeNat16 (n : Nat) : List Nat := [n / 256 % 256, n % 256]

/-- The 16-bit DNS header flags word: QR is bit 15 (`0x8000`), TC is bit 9
(`0x0200`), RD is bit 8 (`0x0100`), and the response code occupies the low
four bits. -/
def flagsWord (m : Message) : Nat :=
  (if m.qr then 32768 else 0) + (if m.tc then 512 else 0) +
  (if m.rd then 256 else 0) + m.rcode.toNat

/-- Encode one textual field as its character codes followed by a `0`
terminator. -/
def encodeStr (s : Str) : List Nat := s.map Char.toNat ++ [0]

/-- Encode one question: name, type and class fields. -/
def encodeQuestion (q : Question) : List Nat :=
  encodeStr q.name ++ encodeStr q.rdtype ++ encodeStr q.rdclass

/-- Encode one answer RRset: name, type, class, 4 ttl bytes and the joined
rdata text. -/
def encodeRRset (r : RRset) : List Nat :=
  encodeStr r.name ++ encodeStr r.rdtype ++ encodeStr r.rdclass ++
  encodeNat16 (r.ttl / 65536) ++ encodeNat16 (r.ttl % 65536) ++
  encodeStr ([RDATA_SEP].intercalate r.rdatas)

/-- `Message.to_wire`: the standard 12-byte DNS header (id, flags, question
count, answer count, zero authority and additional counts) followed by the
encoded question and answer sections. -/
def Message.to_wire (m : Message) : List Nat :=
  encodeNat16 m.id ++ encodeNat16 (flagsWord m) ++
  encodeNat16 m.question.length ++ encodeNat16 m.answer.length ++
  encodeNat16 0 ++ encodeNat16 0 ++
  (m.question.map encodeQuestion).flatten ++ (m.answer.map encodeRRset).flatten

/-- Parse one `0`-terminated textual field off the front of the byte list,
returning it together with the unconsumed tail; fails if no terminator is
found. -/
def parseStr : List Nat → Option (Str × List Nat)
  | [] => none
  | b :: rest =>
    if b = 0 then some ([], rest)
    else
      match parseStr rest with
      | none => none
      | some (s, r) => some (Char.ofNat b :: s, r)

/-- Parse exactly `n` encoded questions. -/
def parseQuestions : Nat → List Nat → Option (List Question × List Nat)
  | 0, bytes => some ([], bytes)
  | n + 1, bytes =>
    match parseStr bytes with
    | none => none
    | some (name, r1) =>
      match parseStr r1 with
      | none => none
      | some (rdtype, r2) =>
        match parseStr r2 with
        | none => none
        | some (rdclass, r3) =>
          match parseQuestions n r3 with
          | none => none
          | some (qs, rest) =>
            some ({ name := name, rdclass := rdclass, rdtype := rdtype } :: qs, rest)

/-- Parse exactly `n` encoded answer RRsets. -/
def parseRRsets : Nat → List Nat → Option (List RRset × List Nat)
  | 0, bytes => some ([], bytes)
  | n + 1, bytes =>
    match parseStr bytes with
    | none => none
    | some (name, r1) =>
      match parseStr r1 with
      | none => none
      | some (rdtype, r2) =>
        match parseStr r2 with
        | none => none
        | some (rdclass, r3) =>
          match r3 with
          | t0 :: t1 :: t2 :: t3 :: r4 =>
            match parseStr r4 with
            | none => none
            | some (rdatas, r5) =>
              match parseRRsets n r5 with
              | none => none
              | some (rs, rest) =>
                some ({ name := name, ttl := (t0 * 256 + t1) * 65536 + (t2 * 256 + t3),
                        rdclass := rdclass, rdtype := rdtype,
                        rdatas := rdatas.splitOn RDATA_SEP } :: rs, rest)
          | _ => none

/-- Decode the low four bits of the flags word into a modelled response
code. -/
def decodeRcode : Nat → Option Rcode
  | 0 => some .NOERROR
  | 2 => some .SERVFAIL
  | 3 => some .NXDOMAIN
  | _ => none

/-- `dns.message.from_wire`: strict parse of a whole datagram — a 12-byte
header (authority and additional counts must be zero in this model, matching
the messages the server itself produces), exactly the announced number of
questions and answers, and no trailing bytes (dnspython raises `TrailingJunk`
otherwise).  Any malformed input yields `none`, standing for the
`dns.exception.FormError`-family exception the library raises. -/
def from_wire (data : List Nat) : Option Message :=
  match data with
  | b0 :: b1 :: b2 :: b3 :: b4 :: b5 :: b6 :: b7 :: 0 :: 0 :: 0 :: 0 :: body =>
    match decodeRcode (b3 % 16) with
    | none => none
    | some rcode =>
      match parseQuestions (b4 * 256 + b5) body with
      | none => none
      | some (qs, r1) =>
        match parseRRsets (b6 * 256 + b7) r1 with
        | none => none
        | some (ans, rest) =>
          if rest = [] then
            some { id := b0 * 256 + b1, qr := (b2 / 128) % 2 == 1,
                   tc := (b2 / 2) % 2 == 1, rd := b2 % 2 == 1,
                   rcode := rcode, question := qs, answer := ans }
          else none
  | _ => none

/-- The TC bit of a serialized message: bit 1 of the third header byte. -/
def hasTC (bytes : List Nat) : Bool :=
  match bytes[2]? with
  | some b => (b / 2) % 2 == 1
  | none => false

/-! ## UDP listener -/

/-- `DNSProtocolUDP.datagram_received` (lines 85-93), as the datagram it sends
back (if any): parse, resolve, serialize; if the serialization exceeds 512
bytes, set the TC flag, re-serialize and truncate to 512 bytes.  A datagram
that fails to parse produces no reply: the exception raised by
`dns.message.from_wire` escapes the callback and is contained and logged by
the asyncio event loop, which keeps the transport open. -/
def datagram_received (resolve : Question → Except DnsFault RRset)
    (data : List Nat) : Option (List Nat) :=
  match from_wire data with
  | none => none
  | some query =>
    let response := handle_dns_query resolve query
    let response_bytes := response.to_wire
    if response_bytes.length > 512 then
      some (({ response with tc := true } : Message).to_wire.take 512)
    else
      some response_bytes

/-- The UDP listener over a sequence of incoming datagrams: each datagram is
handled independently (the protocol object keeps no per-datagram state), and
the replies are the datagrams `datagram_received` produces. -/
def udp_listener (resolve : Question → Except DnsFault RRset)
    (datagrams : List (List Nat)) : List (List Nat) :=
  datagrams.filterMap (datagram_received resolve)

/-! ## TCP listener -/

/-- One iteration of the `handle_tcp_client` loop body on a complete frame
payload (lines 101-109): parse, resolve, serialize; if the serialization
exceeds `0xffff` bytes, set TC, re-serialize and truncate to `0xffff` bytes;
frame the reply behind a 2-byte big-endian length prefix.  `none` models the
parse failure: `dns.message.from_wire` raises, and since only
`asyncio.IncompleteReadError` is caught, the exception escapes the loop and
no reply is written. -/
def handle_tcp_frame (resolve : Question → Except DnsFault RRset)
    (data : List Nat) : Option (List Nat) :=
  match from_wire data with
  | none => none
  | some query =>
    let response := handle_dns_query resolve query
    let response_bytes := response.to_wire
    let sent :=
      if response_bytes.length > 65535 then
        ({ response with tc := true } : Message).to_wire.take 65535
      else response_bytes
    some (encodeNat16 sent.length ++ sent)

/-- How one TCP connection ends: `clean` when `asyncio.IncompleteReadError`
(end of stream, possibly mid-frame) is caught and the loop exits normally,
`crashed` when a payload failed to parse and the exception escaped the
loop (closing the connection through the `finally`). -/
inductive TcpExit
  | clean
  | crashed
deriving DecidableEq, Repr

/-- `handle_tcp_client` (lines 96-113) over the connection's incoming byte
stream: repeatedly read a 2-byte big-endian length prefix and that many
payload bytes (an incomplete read raises `IncompleteReadError`, which is
caught: the loop exits cleanly), handle the frame and write the reply; a
payload that fails to parse aborts the connection before anything is written
for it.  Returns the written reply frames and the exit mode. -/
def handle_tcp_client (resolve : Question → Except DnsFault RRset) :
    List Nat → List (List Nat) × TcpExit
  | b0 :: b1 :: rest =>
    let data_len := b0 * 256 + b1
    if rest.length < data_len then ([], .clean)
    else
      match handle_tcp_frame resolve (rest.take data_len) with
      | none => ([], .crashed)
      | some frame =>
        let step := handle_tcp_client resolve (rest.drop data_len)
        (frame :: step.1, step.2)
  | _ => ([], .clean)
termination_by s => s.length
decreasing_by simp; omega

/-- The big-endian integer in the first two bytes of a TCP frame. -/
def frame_len (frame : List Nat) : Nat :=
  match frame with
  | b0 :: b1 :: _ => b0 * 256 + b1
  | _ => 0

/-! ## Administrative HTTP API -/

/-- The path segments `aiohttp` hands `put_record` in `request.match_info`:
depending on which of the four routes matched, `ttl`, `rdclass` and `rdtype`
may be absent (lines 118-121). -/
structure Parts where
  name : Str
  ttl : Option Str
  rdclass : Option Str
  rdtype : Option Str
  rdata : Str
deriving DecidableEq, Repr

/-- The HTTP outcome of a PUT: 200 with empty body, or 400 with an error
text. -/
inductive PutResult
  | ok
  | badRequest (msg : Str)
deriving DecidableEq, Repr

/-- Model of the ttl-text conversion `dns.ttl.from_text` performs inside
`dns.rrset.from_text` when the ttl argument is a string: a non-empty digit
string below `2^32`, anything else raising `BadTTL`, a subclass of
`dns.exception.SyntaxError`. -/
def parse_ttl (s : Str) : Except Str Nat :=
  if s ≠ [] ∧ s.all Char.isDigit then
    let v := s.foldl (fun acc c => acc * 10 + (c.toNat - 48)) 0
    if v < 4294967296 then .ok v else .error "bad ttl".toList
  else .error "bad ttl".toList

/-- The `dns.rrset.from_text(...)` call of `put_record` (lines 125-131): the
path segments with the positional defaults `rdclass="IN"`, `rdtype="A"`, the
name run through `absolutify` and the rdata split on `RDATA_SEP`; `t` is the
already-converted ttl value. -/
def built_rrset (parts : Parts) (t : Nat) : RRset :=
  rrset_from_text (absolutify parts.name) t
    (parts.rdclass.getD "IN".toList) (parts.rdtype.getD "A".toList)
    (parts.rdata.splitOn RDATA_SEP)

/-- `put_record` (lines 122-145): build the RRset from the path segments
(with default `ttl=DEFAULT_TTL` when the route carries none); a
`SyntaxError` during construction yields 400; type ANY yields 400; otherwise
`REPLACE INTO` the row and return 200.  Returns the HTTP outcome together
with the resulting table. -/
def put_record (db : Db) (parts : Parts) : PutResult × Db :=
  let ttlv : Except Str Nat :=
    match parts.ttl with
    | none => .ok DEFAULT_TTL
    | some s => parse_ttl s
  match ttlv with
  | .error e => (.badRequest e, db)
  | .ok t =>
    if (built_rrset parts t).rdtype = "ANY".toList then
      (.badRequest "cannot set ANY".toList, db)
    else (.ok, replace_into db (rrset_to_row (built_rrset parts t)))

/-! ## Resolver lemmas -/

/-- If every question resolves, the batch resolves to one answer per question,
in question order. -/
theorem resolveAll_ok (resolve : Question → Except DnsFault RRset) :
    ∀ qs : List Question, (∀ q ∈ qs, ∃ r, resolve q = .ok r) →
    ∃ rs, resolveAll resolve qs = .ok rs ∧ rs.length = qs.length ∧
      ∀ i : Nat, ∀ hq : i < qs.length, ∀ hr : i < rs.length,
        resolve (qs.get ⟨i, hq⟩) = .ok (rs.get ⟨i, hr⟩) := by
  intro qs
  induction qs with
  | nil =>
    intro _
    exact ⟨[], rfl, rfl, fun i hq => absurd hq (by simp)⟩
  | cons q qs ih =>
    intro h
    obtain ⟨r, hr⟩ := h q (List.mem_cons_self q qs)
    obtain ⟨rs, h1, h2, h3⟩ := ih (fun x hx => h x (List.mem_cons_of_mem q hx))
    refine ⟨r :: rs, by simp [resolveAll, hr, h1], by simp [h2], ?_⟩
    intro i hq hr'
    cases i with
    | zero => simpa using hr
    | succ n => simpa using h3 n (by simpa using hq) (by simpa using hr')

/-- A failed batch fails with the exception of one of its questions. -/
theorem resolveAll_error_mem (resolve : Question → Except DnsFault RRset) :
    ∀ qs e, resolveAll resolve qs = .error e → ∃ q ∈ qs, resolve q = .error e := by
  intro qs
  induction qs with
  | nil => intro e h; simp [resolveAll] at h
  | cons q qs ih =>
    intro e h
    unfold resolveAll at h
    cases hq : resolve q with
    | error e' =>
      rw [hq] at h
      simp only [Except.error.injEq] at h
      exact ⟨q, List.mem_cons_self q qs, by rw [hq, h]⟩
    | ok r =>
      rw [hq] at h
      cases hrec : resolveAll resolve qs with
      | error e'' =>
        rw [hrec] at h
        simp only [Except.error.injEq] at h
        obtain ⟨q', hq', hres⟩ := ih e'' hrec
        exact ⟨q', List.mem_cons_of_mem q hq', by rw [hres, h]⟩
      | ok rs =>
        rw [hrec] at h
        simp at h

/-- If some question raises, the whole batch raises. -/
theorem resolveAll_error_exists (resolve : Question → Except DnsFault RRset) :
    ∀ qs q, q ∈ qs → ∀ e, resolve q = .error e →
    ∃ e', resolveAll resolve qs = .error e' := by
  intro qs
  induction qs with
  | nil => intro q hq; simp at hq
  | cons q0 qs ih =>
    intro q hq e he
    rcases List.mem_cons.mp hq with h | h
    · subst h
      exact ⟨e, by simp [resolveAll, he]⟩
    · cases hq0 : resolve q0 with
      | error e0 => exact ⟨e0, by simp [resolveAll, hq0]⟩
      | ok r =>
        obtain ⟨e', he'⟩ := ih q h e he
        exact ⟨e', by simp [resolveAll, hq0, he']⟩

/-- The response never carries the TC flag when it leaves the resolver:
`make_response` clears it and `handle_dns_query` never sets it. -/
theorem handle_dns_query_tc (resolve : Question → Except DnsFault RRset)
    (query : Message) : (handle_dns_query resolve query).tc = false := by
  unfold handle_dns_query
  cases h : resolveAll resolve query.question with
  | ok rs => simp [make_response]
  | error e => cases e <;> simp [make_response]

/-- C1: the resolver is all-or-nothing.  If every question in the request
resolves via the store, the response code is NOERROR and the answer section
holds exactly one RRset per question, in question order; if some question
misses the store (the `KeyError` of `answer_question`) and no other fault
occurs, the response code is NXDOMAIN and the answer section is empty; if
some unexpected fault occurs and no question misses, the response code is
SERVFAIL and the answer section is empty.  Finally, the `KeyError` of
`answer_question` is exactly a store miss of `query_db`. -/
theorem C1_resolver_all_or_nothing (resolve : Question → Except DnsFault RRset)
    (query : Message) :
    ((∀ q ∈ query.question, ∃ r, resolve q = .ok r) →
       (handle_dns_query resolve query).rcode = Rcode.NOERROR ∧
       (handle_dns_query resolve query).answer.length = query.question.length ∧
       ∀ i : Nat, ∀ hq : i < query.question.length,
         ∀ ha : i < (handle_dns_query resolve query).answer.length,
         resolve (query.question.get ⟨i, hq⟩) =
           .ok ((handle_dns_query resolve query).answer.get ⟨i, ha⟩)) ∧
    (((∃ q ∈ query.question, resolve q = .error .keyError) ∧
        ∀ q ∈ query.question, ∀ s, resolve q ≠ .error (.other s)) →
       (handle_dns_query resolve query).rcode = Rcode.NXDOMAIN ∧
       (handle_dns_query resolve query).answer = []) ∧
    (((∃ q ∈ query.question, ∃ s, resolve q = .error (.other s)) ∧
        ∀ q ∈ query.question, resolve q ≠ .error .keyError) →
       (handle_dns_query resolve query).rcode = Rcode.SERVFAIL ∧
       (handle_dns_query resolve query).answer = []) ∧
    (∀ db : Db, ∀ q : Question,
       answer_question db q = .error DnsFault.keyError ↔
       query_db db q.name q.rdclass q.rdtype = none) := by
  refine ⟨?_, ?_, ?_, ?_⟩
  · intro h
    obtain ⟨rs, h1, h2, h3⟩ := resolveAll_ok resolve query.question h
    have heq : handle_dns_query resolve query = { make_response query with answer := rs } := by
      simp [handle_dns_query, h1]
    rw [heq]
    exact ⟨rfl, h2, h3⟩
  · rintro ⟨⟨q, hq, hkey⟩, hno⟩
    obtain ⟨e', he'⟩ := resolveAll_error_exists resolve query.question q hq _ hkey
    obtain ⟨q', hq', hres'⟩ := resolveAll_error_mem resolve query.question e' he'
    have hek : e' = .keyError := by
      cases e' with
      | keyError => rfl
      | other s => exact absurd hres' (hno q' hq' s)
    subst hek
    simp [handle_dns_query, he', make_response]
  · rintro ⟨⟨q, hq, s, hoth⟩, hno⟩
    obtain ⟨e', he'⟩ := resolveAll_error_exists resolve query.question q hq _ hoth
    obtain ⟨q', hq', hres'⟩ := resolveAll_error_mem resolve query.question e' he'
    have hek : ∃ s', e' = .other s' := by
      cases e' with
      | keyError => exact absurd hres' (hno q' hq')
      | other s' => exact ⟨s', rfl⟩
    obtain ⟨s', rfl⟩ := hek
    simp [handle_dns_query, he', make_response]
  · intro db q
    unfold answer_question
    cases hq : query_db db q.name q.rdclass q.rdtype with
    | none => simp
    | some r => simp

/-- A one-record store used by the concrete witnesses. -/
def rowEx : Row :=
  { name := "example.com.".toList, ttl := 60, rdclass := "IN".toList,
    rdtype := "A".toList, rdatas := "1.2.3.4".toList }

/-- The question the witness store answers. -/
def qEx : Question :=
  { name := "example.com.".toList, rdclass := "IN".toList, rdtype := "A".toList }

/-- A question the witness store misses. -/
def qMiss : Question :=
  { name := "nowhere.test.".toList, rdclass := "IN".toList, rdtype := "A".toList }

/-- A request with the given question list. -/
def mkQuery (qs : List Question) : Message :=
  { id := 7, qr := false, tc := false, rd := true, rcode := .NOERROR,
    question := qs, answer := [] }

/-- Witness for C1: against the concrete one-record store, a resolvable
question yields NOERROR, a missing question yields NXDOMAIN with no answers,
and a resolver that faults yields SERVFAIL with no answers. -/
theorem C1_resolver_all_or_nothing_witness :
    (handle_dns_query (answer_question [rowEx]) (mkQuery [qEx])).rcode = Rcode.NOERROR ∧
    (handle_dns_query (answer_question [rowEx]) (mkQuery [qMiss])).rcode = Rcode.NXDOMAIN ∧
    (handle_dns_query (answer_question [rowEx]) (mkQuery [qMiss])).answer = [] ∧
    (handle_dns_query (fun _ => .error (.other "boom".toList)) (mkQuery [qEx])).rcode =
      Rcode.SERVFAIL := by
  refine ⟨?_, ?_, ?_, ?_⟩
  · refine ((C1_resolver_all_or_nothing (answer_question [rowEx]) (mkQuery [qEx])).1 ?_).1
    intro q hq
    rw [show (mkQuery [qEx]).question = [qEx] from rfl, List.mem_singleton] at hq
    subst hq
    exact ⟨row_to_rrset rowEx, rfl⟩
  · refine (((C1_resolver_all_or_nothing (answer_question [rowEx]) (mkQuery [qMiss])).2.1 ?_)).1
    refine ⟨⟨qMiss, by simp [mkQuery], rfl⟩, ?_⟩
    intro q hq s
    rw [show (mkQuery [qMiss]).question = [qMiss] from rfl, List.mem_singleton] at hq
    subst hq
    intro hcontra
    rw [show answer_question [rowEx] qMiss = .error DnsFault.keyError from rfl] at hcontra
    simp at hcontra
  · refine (((C1_resolver_all_or_nothing (answer_question [rowEx]) (mkQuery [qMiss])).2.1 ?_)).2
    refine ⟨⟨qMiss, by simp [mkQuery], rfl⟩, ?_⟩
    intro q hq s
    rw [show (mkQuery [qMiss]).question = [qMiss] from rfl, List.mem_singleton] at hq
    subst hq
    intro hcontra
    rw [show answer_question [rowEx] qMiss = .error DnsFault.keyError from rfl] at hcontra
    simp at hcontra
  · refine (((C1_resolver_all_or_nothing (fun _ => .error (.other "boom".toList))
      (mkQuery [qEx])).2.2.1 ?_)).1
    refine ⟨⟨qEx, by simp [mkQuery], "boom".toList, rfl⟩, ?_⟩
    intro q hq
    simp

/-! ## Wire-level lemmas -/

/-- The third byte of a serialized message is the high byte of the flags
word. -/
theorem to_wire_getElem2 (m : Message) :
    (Message.to_wire m)[2]? = some (flagsWord m / 256 % 256) := by
  simp [Message.to_wire, encodeNat16]

/-- `hasTC` reads back exactly the TC flag of the serialized message. -/
theorem hasTC_to_wire (m : Message) : hasTC m.to_wire = m.tc := by
  simp only [hasTC, to_wire_getElem2]
  rcases m with ⟨id, qr, tc, rd, rcode, qs, ans⟩
  cases qr <;> cases tc <;> cases rd <;> cases rcode <;>
    simp [flagsWord, Rcode.toNat]

/-- Truncation after the header does not touch the flags byte. -/
theorem hasTC_take (l : List Nat) (n : Nat) (hn : 2 < n) :
    hasTC (l.take n) = hasTC l := by
  simp only [hasTC, List.getElem?_take_of_lt hn]

/-- Setting the TC flag and re-serializing does not change the length of the
wire form (only the flags byte differs). -/
theorem to_wire_length_tc (m : Message) (b : Bool) :
    ({ m with tc := b } : Message).to_wire.length = m.to_wire.length := by
  simp [Message.to_wire, encodeNat16]

/-- C2: the UDP listener's truncation policy.  For a datagram that parses to
`query`: if the serialized response exceeds 512 bytes, the sent datagram is
at most 512 bytes and carries the TC flag; if it is at most 512 bytes, the
serialization is sent unmodified and carries no TC flag. -/
theorem C2_udp_truncation (resolve : Question → Except DnsFault RRset)
    (data : List Nat) (query : Message) (hp : from_wire data = some query) :
    (512 < (handle_dns_query resolve query).to_wire.length →
       ∃ sent, datagram_received resolve data = some sent ∧
         sent.length ≤ 512 ∧ hasTC sent = true) ∧
    ((handle_dns_query resolve query).to_wire.length ≤ 512 →
       datagram_received resolve data = some (handle_dns_query resolve query).to_wire ∧
       hasTC (handle_dns_query resolve query).to_wire = false) := by
  constructor
  · intro hlen
    refine ⟨({ handle_dns_query resolve query with tc := true } : Message).to_wire.take 512,
      ?_, ?_, ?_⟩
    · simp only [datagram_received, hp]
      rw [if_pos hlen]
    · simp [List.length_take]
    · rw [hasTC_take _ 512 (by omega), hasTC_to_wire]
  · intro hlen
    have hnot : ¬ (handle_dns_query resolve query).to_wire.length > 512 := by omega
    refine ⟨?_, ?_⟩
    · simp only [datagram_received, hp]
      rw [if_neg hnot]
    · rw [hasTC_to_wire]
      exact handle_dns_query_tc resolve query

/-- The parsed form of `dataQEx`. -/
def queryEx : Message :=
  { id := 0, qr := false, tc := false, rd := false, rcode := .NOERROR,
    question := [qEx], answer := [] }

/-- A well-formed wire query carrying the single question `qEx`. -/
def dataQEx : List Nat := [0, 0, 0, 0, 0, 1, 0, 0, 0, 0, 0, 0] ++ encodeQuestion qEx

/-- A resolver whose answer serializes to more than 512 bytes. -/
def resolveBig : Question → Except DnsFault RRset :=
  fun _ => .ok { name := "example.com.".toList, ttl := 60, rdclass := "IN".toList,
                 rdtype := "TXT".toList, rdatas := [List.replicate 600 'a'] }

set_option maxRecDepth 16384 in
/-- Witness for C2: on a concrete parsed query, a short response is sent
verbatim without TC, and an over-512-byte response is sent truncated with
TC. -/
theorem C2_udp_truncation_witness :
    (datagram_received (answer_question [rowEx]) dataQEx =
       some (handle_dns_query (answer_question [rowEx]) queryEx).to_wire ∧
     hasTC (handle_dns_query (answer_question [rowEx]) queryEx).to_wire = false) ∧
    (∃ sent, datagram_received resolveBig dataQEx = some sent ∧
       sent.length ≤ 512 ∧ hasTC sent = true) := by
  constructor
  · exact (C2_udp_truncation (answer_question [rowEx]) dataQEx queryEx (by decide)).2 (by decide)
  · exact (C2_udp_truncation resolveBig dataQEx queryEx (by decide)).1 (by decide)

/-- C5: a UDP datagram that does not parse as a Message produces no reply,
and the listener goes on to process the remaining datagrams unaffected (the
exception raised in the `datagram_received` callback is contained by the
asyncio event loop, which logs it and keeps the transport open). -/
theorem C5_udp_silent_drop (resolve : Question → Except DnsFault RRset)
    (data : List Nat) (rest : List (List Nat)) (hp : from_wire data = none) :
    datagram_received resolve data = none ∧
    udp_listener resolve (data :: rest) = udp_listener resolve rest := by
  have h1 : datagram_received resolve data = none := by
    simp [datagram_received, hp]
  exact ⟨h1, by simp [udp_listener, List.filterMap_cons, h1]⟩

/-- Witness for C5: the unparsable datagram `[1, 2, 3]` is dropped silently
and a following well-formed datagram is still answered. -/
theorem C5_udp_silent_drop_witness :
    datagram_received (answer_question [rowEx]) [1, 2, 3] = none ∧
    udp_listener (answer_question [rowEx]) ([1, 2, 3] :: [dataQEx]) =
      udp_listener (answer_question [rowEx]) [dataQEx] :=
  C5_udp_silent_drop (answer_question [rowEx]) [1, 2, 3] [dataQEx] (by decide)

/-! ## TCP lemmas -/

/-- Unfolding: an empty (or one-byte) stream ends the loop cleanly. -/
theorem handle_tcp_client_nil (resolve : Question → Except DnsFault RRset) :
    handle_tcp_client resolve [] = ([], TcpExit.clean) := by
  rw [handle_tcp_client.eq_def]

/-- Unfolding the loop on a stream that begins with a 2-byte length prefix. -/
theorem handle_tcp_client_cons (resolve : Question → Except DnsFault RRset)
    (b0 b1 : Nat) (rest : List Nat) :
    handle_tcp_client resolve (b0 :: b1 :: rest) =
      (if rest.length < b0 * 256 + b1 then ([], TcpExit.clean)
       else
         match handle_tcp_frame resolve (rest.take (b0 * 256 + b1)) with
         | none => ([], TcpExit.crashed)
         | some frame =>
           let step := handle_tcp_client resolve (rest.drop (b0 * 256 + b1))
           (frame :: step.1, step.2)) := by
  rw [handle_tcp_client.eq_def]

/-- A reply frame of the loop body: the 2-byte big-endian prefix decodes to
the payload length and the payload fits in 16 bits. -/
theorem handle_tcp_frame_frames (resolve : Question → Except DnsFault RRset)
    (data frame : List Nat) (h : handle_tcp_frame resolve data = some frame) :
    frame_len frame = (frame.drop 2).length ∧ (frame.drop 2).length ≤ 65535 := by
  unfold handle_tcp_frame at h
  cases hq : from_wire data with
  | none => rw [hq] at h; simp at h
  | some query =>
    rw [hq] at h
    simp only [Option.some.injEq] at h
    set rb := (handle_dns_query resolve query).to_wire with hrb
    by_cases hbig : rb.length > 65535
    · rw [if_pos hbig] at h
      set sent := ({ handle_dns_query resolve query with tc := true } : Message).to_wire.take 65535
        with hsent
      have hslen : sent.length ≤ 65535 := by
        rw [hsent]
        simp [List.length_take]
      rw [← h]
      have hfrm : encodeNat16 sent.length ++ sent =
          (sent.length / 256 % 256) :: (sent.length % 256) :: sent := by
        simp [encodeNat16]
      rw [hfrm]
      have hdiv : sent.length / 256 % 256 = sent.length / 256 := by
        have : sent.length / 256 ≤ 65535 / 256 := Nat.div_le_div_right hslen
        exact Nat.mod_eq_of_lt (by omega)
      have hdm := Nat.div_add_mod sent.length 256
      refine ⟨?_, by simpa using hslen⟩
      show (sent.length / 256 % 256) * 256 + sent.length % 256 = sent.length
      rw [hdiv]
      omega
    · rw [if_neg hbig] at h
      rw [← h]
      have hfrm : encodeNat16 rb.length ++ rb =
          (rb.length / 256 % 256) :: (rb.length % 256) :: rb := by
        simp [encodeNat16]
      rw [hfrm]
      have hslen : rb.length ≤ 65535 := by omega
      have hdiv : rb.length / 256 % 256 = rb.length / 256 := by
        have : rb.length / 256 ≤ 65535 / 256 := Nat.div_le_div_right hslen
        exact Nat.mod_eq_of_lt (by omega)
      have hdm := Nat.div_add_mod rb.length 256
      refine ⟨?_, by simpa using hslen⟩
      show (rb.length / 256 % 256) * 256 + rb.length % 256 = rb.length
      rw [hdiv]
      omega

/-- Every frame the connection loop writes is a frame the loop body
produced. -/
theorem handle_tcp_client_frames (resolve : Question → Except DnsFault RRset)
    (stream frame : List Nat) (hmem : frame ∈ (handle_tcp_client resolve stream).1) :
    ∃ data, handle_tcp_frame resolve data = some frame := by
  have H : ∀ n : Nat, ∀ s : List Nat, s.length ≤ n →
      ∀ f ∈ (handle_tcp_client resolve s).1,
      ∃ data, handle_tcp_frame resolve data = some f := by
    intro n
    induction n with
    | zero =>
      intro s hs f hf
      have hnil : s = [] := List.eq_nil_of_length_eq_zero (Nat.le_zero.mp hs)
      subst hnil
      rw [handle_tcp_client_nil] at hf
      simp at hf
    | succ n ih =>
      intro s hs f hf
      rcases s with _ | ⟨b0, s1⟩
      · rw [handle_tcp_client_nil] at hf; simp at hf
      rcases s1 with _ | ⟨b1, rest⟩
      · rw [handle_tcp_client.eq_def] at hf; simp at hf
      rw [handle_tcp_client_cons] at hf
      by_cases hlen : rest.length < b0 * 256 + b1
      · rw [if_pos hlen] at hf; simp at hf
      rw [if_neg hlen] at hf
      cases hframe : handle_tcp_frame resolve (rest.take (b0 * 256 + b1)) with
      | none => rw [hframe] at hf; simp at hf
      | some fr =>
        rw [hframe] at hf
        simp only [List.mem_cons] at hf
        rcases hf with rfl | hf
        · exact ⟨rest.take (b0 * 256 + b1), hframe⟩
        · refine ih (rest.drop (b0 * 256 + b1)) ?_ f hf
          simp only [List.length_cons] at hs
          simp only [List.length_drop]
          omega
  exact H stream.length stream (Nat.le_refl _) frame hmem

/-- C3: TCP framing.  Every reply frame the connection loop writes starts
with a 2-byte big-endian length equal to the length of the following payload,
and that length is at most 65535; moreover, whenever the serialized response
to a parsed payload exceeds 65535 bytes, the loop body replies with a frame
whose payload is exactly 65535 bytes and carries the TC flag. -/
theorem C3_tcp_framing (resolve : Question → Except DnsFault RRset)
    (stream frame : List Nat)
    (hmem : frame ∈ (handle_tcp_client resolve stream).1) :
    (frame_len frame = (frame.drop 2).length ∧ (frame.drop 2).length ≤ 65535) ∧
    (∀ data query, from_wire data = some query →
       65535 < (handle_dns_query resolve query).to_wire.length →
       ∃ f, handle_tcp_frame resolve data = some f ∧
         (f.drop 2).length = 65535 ∧ hasTC (f.drop 2) = true) := by
  constructor
  · obtain ⟨data, hdata⟩ := handle_tcp_client_frames resolve stream frame hmem
    exact handle_tcp_frame_frames resolve data frame hdata
  · intro data query hq hlen
    have hsent : ((({ handle_dns_query resolve query with tc := true } : Message).to_wire).take
        65535).length = 65535 := by
      rw [List.length_take, to_wire_length_tc]
      omega
    refine ⟨encodeNat16 65535 ++
      ({ handle_dns_query resolve query with tc := true } : Message).to_wire.take 65535,
      ?_, ?_, ?_⟩
    · simp only [handle_tcp_frame, hq]
      rw [if_pos hlen, hsent]
    · simp [encodeNat16, hsent]
    · have hdrop : (encodeNat16 65535 ++
          ({ handle_dns_query resolve query with tc := true } : Message).to_wire.take
            65535).drop 2 =
          ({ handle_dns_query resolve query with tc := true } : Message).to_wire.take 65535 := by
        simp [encodeNat16]
      rw [hdrop, hasTC_take _ 65535 (by omega), hasTC_to_wire]

/-- The byte stream fed to the TCP witness: one well-framed 12-byte payload
that parses to the empty-question message. -/
def streamEx : List Nat := [0, 12, 0, 0, 0, 0, 0, 0, 0, 0, 0, 0, 0, 0]

/-- The frame the loop writes back for `streamEx`. -/
def frameEx : List Nat := [0, 12, 0, 0, 128, 0, 0, 0, 0, 0, 0, 0, 0, 0]

/-- Concrete evaluation of the connection loop on `streamEx`. -/
theorem handle_tcp_client_streamEx :
    handle_tcp_client (answer_question []) streamEx = ([frameEx], TcpExit.clean) := by
  show handle_tcp_client (answer_question [])
      (0 :: 12 :: [0, 0, 0, 0, 0, 0, 0, 0, 0, 0, 0, 0]) = ([frameEx], TcpExit.clean)
  rw [handle_tcp_client_cons]
  norm_num
  have hfr : handle_tcp_frame (answer_question [])
      [0, 0, 0, 0, 0, 0, 0, 0, 0, 0, 0, 0] = some frameEx := rfl
  rw [hfr]
  simp [handle_tcp_client_nil]

/-- Witness for C3: the concrete frame written for `streamEx` satisfies the
framing invariant. -/
theorem C3_tcp_framing_witness :
    frame_len frameEx = (frameEx.drop 2).length ∧ (frameEx.drop 2).length ≤ 65535 := by
  have hmem : frameEx ∈ (handle_tcp_client (answer_question []) streamEx).1 := by
    rw [handle_tcp_client_streamEx]
    simp
  exact (C3_tcp_framing (answer_question []) streamEx frameEx hmem).1

/-- C4 counterexample: the well-framed payload `[1, 2, 3]` (length prefix
`[0, 3]`, three payload bytes) does not parse as a Message, and the TCP
handler writes no reply at all — the parse exception escapes the loop (only
`IncompleteReadError` is caught) and the connection is closed — contradicting
the claim that a SERVFAIL response is returned inside a valid frame. -/
theorem C4_tcp_parse_failure_counterexample :
    from_wire [1, 2, 3] = none ∧
    handle_tcp_client (answer_question []) [0, 3, 1, 2, 3] = ([], TcpExit.crashed) := by
  refine ⟨by decide, ?_⟩
  show handle_tcp_client (answer_question []) (0 :: 3 :: [1, 2, 3]) = ([], TcpExit.crashed)
  rw [handle_tcp_client_cons]
  norm_num
  have hfr : handle_tcp_frame (answer_question []) [1, 2, 3] = none := rfl
  rw [hfr]

/-- C4 amended: when a complete, well-framed payload fails to parse as a
Message, the TCP handler sends nothing (no SERVFAIL frame): the exception
raised by `dns.message.from_wire` is not `asyncio.IncompleteReadError`, so it
escapes the read loop, the `finally` closes the writer and the connection
terminates. -/
theorem C4_tcp_parse_failure_amended (resolve : Question → Except DnsFault RRset)
    (b0 b1 : Nat) (rest : List Nat)
    (hlen : ¬ rest.length < b0 * 256 + b1)
    (hp : from_wire (rest.take (b0 * 256 + b1)) = none) :
    handle_tcp_client resolve (b0 :: b1 :: rest) = ([], TcpExit.crashed) := by
  rw [handle_tcp_client_cons, if_neg hlen]
  have hfr : handle_tcp_frame resolve (rest.take (b0 * 256 + b1)) = none := by
    simp [handle_tcp_frame, hp]
  rw [hfr]

/-- Witness for the amended C4 on the concrete malformed frame. -/
theorem C4_tcp_parse_failure_amended_witness :
    handle_tcp_client (answer_question [rowEx]) [0, 3, 1, 2, 3] = ([], TcpExit.crashed) :=
  C4_tcp_parse_failure_amended (answer_question [rowEx]) 0 3 [1, 2, 3]
    (by decide) (by decide)

/-! ## Store lemmas -/

/-- An RRset whose stored name contains upper-case letters. -/
def rUpper : RRset :=
  rrset_from_text "EXAMPLE.com".toList 60 "IN".toList "A".toList ["1.2.3.4".toList]

/-- The same record with a lower-case name. -/
def rLower : RRset :=
  rrset_from_text "example.com".toList 60 "IN".toList "A".toList ["1.2.3.4".toList]

/-- C6: evaluation at the failing input.  `put` of an RRset whose name
contains an upper-case letter stores the name with its case preserved
(`rrset_to_row` uses `name.to_text()` verbatim), while `query_db` lower-cases
the looked-up name before the byte-wise sqlite comparison; the stored record
is therefore unreachable no matter the case of the query (first two
conjuncts), refuting the claimed case-robust round-trip.  With a lower-case
name the round-trip does hold, for any letter case of the query name, class
and type (last two conjuncts). -/
theorem C6_case_roundtrip_bug :
    query_db (put_rrset [] rUpper) rUpper.name rUpper.rdclass rUpper.rdtype = none ∧
    query_db (put_rrset [] rUpper) "example.com.".toList "in".toList "a".toList = none ∧
    query_db (put_rrset [] rLower) "EXAMPLE.com.".toList "in".toList "a".toList = some rLower ∧
    query_db (put_rrset [] rLower) rLower.name rLower.rdclass rLower.rdtype = some rLower := by
  refine ⟨by decide, by decide, by decide, by decide⟩

/-- Filtering for a key immediately after filtering that key out finds
nothing. -/
theorem filter_not_filter (db : Db) (p : Row → Bool) :
    (db.filter (fun r => !(p r))).filter p = [] := by
  induction db with
  | nil => rfl
  | cons r rest ih =>
    by_cases h : p r
    · simp [List.filter_cons, h, ih]
    · simp [List.filter_cons, h, ih]

/-- After `REPLACE INTO`, exactly the inserted row carries its key. -/
theorem replace_into_filter (db : Db) (row : Row) :
    (replace_into db row).filter (fun r => rowKey r == rowKey row) = [row] := by
  unfold replace_into
  rw [List.filter_append, filter_not_filter]
  simp

/-- Key uniqueness of the table: no two rows share a `(name, class, type)`
key. -/
def keyUnique (db : Db) : Prop := db.Pairwise (fun a b => rowKey a ≠ rowKey b)

/-- `REPLACE INTO` preserves key uniqueness. -/
theorem keyUnique_replace_into (db : Db) (row : Row) (h : keyUnique db) :
    keyUnique (replace_into db row) := by
  unfold keyUnique replace_into
  rw [List.pairwise_append]
  refine ⟨h.sublist (List.filter_sublist db), by simp, ?_⟩
  intro x hx y hy
  rw [List.mem_filter] at hx
  rw [List.mem_singleton] at hy
  subst hy
  simpa using hx.2

/-- C7: `REPLACE INTO` against `PRIMARY KEY(name, rdclass, rdtype)` is a
complete replacement.  Two successive `put`s with the same key starting from
the empty table leave exactly one stored row, the row of the second RRset
(no merge); in any table, the rows carrying that key after the two `put`s
are exactly the second row; and key uniqueness is preserved by every pair of
writes. -/
theorem C7_put_replaces (db : Db) (R Rtwo : RRset)
    (hk : rowKey (rrset_to_row R) = rowKey (rrset_to_row Rtwo)) :
    put_rrset (put_rrset [] R) Rtwo = [rrset_to_row Rtwo] ∧
    (put_rrset (put_rrset db R) Rtwo).filter
      (fun r => rowKey r == rowKey (rrset_to_row Rtwo)) = [rrset_to_row Rtwo] ∧
    (keyUnique db → keyUnique (put_rrset (put_rrset db R) Rtwo)) := by
  refine ⟨?_, replace_into_filter _ _,
    fun h => keyUnique_replace_into _ _ (keyUnique_replace_into _ _ h)⟩
  simp [put_rrset, replace_into, List.filter_cons, hk]

/-- A second record under the `rLower` key, with different ttl and rdata. -/
def rLowerTwo : RRset :=
  rrset_from_text "example.com".toList 300 "IN".toList "A".toList ["5.6.7.8".toList]

/-- Witness for C7: two concrete same-key `put`s leave exactly the second
row. -/
theorem C7_put_replaces_witness :
    put_rrset (put_rrset [] rLower) rLowerTwo = [rrset_to_row rLowerTwo] ∧
    put_rrset (put_rrset [] rLower) rLowerTwo ≠ [rrset_to_row rLower] := by
  refine ⟨(C7_put_replaces [] rLower rLowerTwo (by decide)).1, by decide⟩

/-! ## Administrative API claims -/

/-- C8: a PUT whose record type parses to ANY is rejected with 400 and does
not touch the store (either the RRset text fails to parse, also a 400 with
the table unchanged, or the explicit ANY check fires before the
`REPLACE INTO`). -/
theorem C8_put_any_rejected (db : Db) (parts : Parts) (s : Str)
    (hty : parts.rdtype = some s) (hany : strUpper s = "ANY".toList) :
    (∃ msg, (put_record db parts).1 = PutResult.badRequest msg) ∧
    (put_record db parts).2 = db := by
  rcases parts with ⟨name, ttl, rdclass, rdtype, rdata⟩
  simp only [Parts.rdtype] at hty
  subst hty
  cases ttl with
  | none =>
    have hcond : (built_rrset ⟨name, none, rdclass, some s, rdata⟩ DEFAULT_TTL).rdtype =
        "ANY".toList := by
      simp [built_rrset, rrset_from_text, hany]
    simp [put_record, hcond]
  | some t =>
    cases hp : parse_ttl t with
    | error e => simp [put_record, hp]
    | ok v =>
      have hcond : (built_rrset ⟨name, some t, rdclass, some s, rdata⟩ v).rdtype =
          "ANY".toList := by
        simp [built_rrset, rrset_from_text, hany]
      simp [put_record, hp, hcond]

/-- A PUT of type `any` through the `name/type/rdata` route. -/
def partsAny : Parts :=
  { name := "example.com".toList, ttl := none, rdclass := none,
    rdtype := some "any".toList, rdata := "1.2.3.4".toList }

/-- Witness for C8: the concrete `any` PUT gets a 400 and leaves the empty
store empty. -/
theorem C8_put_any_rejected_witness :
    (∃ msg, (put_record [] partsAny).1 = PutResult.badRequest msg) ∧
    (put_record [] partsAny).2 = [] :=
  C8_put_any_rejected [] partsAny "any".toList (by decide) (by decide)

/-- `absolutify` is idempotent. -/
theorem absolutify_idem (name : Str) : absolutify (absolutify name) = absolutify name := by
  unfold absolutify
  by_cases h : name.getLast? = some '.'
  · rw [if_pos h, if_pos h]
  · rw [if_neg h, if_pos (by simp)]

/-- C9: a successful shortened-form PUT stores a row whose omitted fields
took the positional defaults `ttl = 60`, `class = IN`, `type = A`, whose
name is the request name auto-qualified, and `absolutify` appends a trailing
dot exactly when the given name does not already end in one. -/
theorem C9_put_defaults (db : Db) (parts : Parts)
    (hok : (put_record db parts).1 = PutResult.ok) :
    ∃ row : Row, (put_record db parts).2 = replace_into db row ∧
      row.name = absolutify parts.name ∧
      (parts.ttl = none → row.ttl = DEFAULT_TTL) ∧
      (parts.rdclass = none → row.rdclass = "IN".toList) ∧
      (parts.rdtype = none → row.rdtype = "A".toList) ∧
      (parts.name.getLast? = some '.' → absolutify parts.name = parts.name) ∧
      (parts.name.getLast? ≠ some '.' → absolutify parts.name = parts.name ++ ['.']) := by
  rcases parts with ⟨name, ttl, rdclass, rdtype, rdata⟩
  simp only [Parts.name, Parts.ttl, Parts.rdclass, Parts.rdtype]
  have habs : (absolutify name).getLast? = some '.' := by
    unfold absolutify
    by_cases h : name.getLast? = some '.'
    · rwa [if_pos h]
    · rw [if_neg h]; simp
  have hchar : (name.getLast? = some '.' → absolutify name = name) ∧
      (name.getLast? ≠ some '.' → absolutify name = name ++ ['.']) := by
    constructor
    · intro h; unfold absolutify; rw [if_pos h]
    · intro h; unfold absolutify; rw [if_neg h]
  cases ttl with
  | none =>
    by_cases hcond : (built_rrset ⟨name, none, rdclass, rdtype, rdata⟩ DEFAULT_TTL).rdtype =
        "ANY".toList
    · exfalso
      simp [put_record, hcond] at hok
    · refine ⟨rrset_to_row (built_rrset ⟨name, none, rdclass, rdtype, rdata⟩ DEFAULT_TTL),
        ?_, ?_, ?_, ?_, ?_, hchar.1, hchar.2⟩
      · have hcond2 : ¬ (built_rrset ⟨name, none, rdclass, rdtype, rdata⟩ DEFAULT_TTL).rdtype =
            ['A', 'N', 'Y'] := by simpa using hcond
        simp [put_record, hcond2]
      · simp [rrset_to_row, built_rrset, rrset_from_text, absolutify_idem]
      · intro _
        simp [rrset_to_row, built_rrset, rrset_from_text]
      · intro h
        subst h
        (simp [rrset_to_row, built_rrset, rrset_from_text]; decide)
      · intro h
        subst h
        (simp [rrset_to_row, built_rrset, rrset_from_text]; decide)
  | some t =>
    cases hp : parse_ttl t with
    | error e => exfalso; simp [put_record, hp] at hok
    | ok v =>
      by_cases hcond : (built_rrset ⟨name, some t, rdclass, rdtype, rdata⟩ v).rdtype =
          "ANY".toList
      · exfalso
        simp [put_record, hp, hcond] at hok
      · refine ⟨rrset_to_row (built_rrset ⟨name, some t, rdclass, rdtype, rdata⟩ v),
          ?_, ?_, ?_, ?_, ?_, hchar.1, hchar.2⟩
        · have hcond2 : ¬ (built_rrset ⟨name, some t, rdclass, rdtype, rdata⟩ v).rdtype =
              ['A', 'N', 'Y'] := by simpa using hcond
          simp [put_record, hp, hcond2]
        · simp [rrset_to_row, built_rrset, rrset_from_text, absolutify_idem]
        · intro h
          simp at h
        · intro h
          subst h
          (simp [rrset_to_row, built_rrset, rrset_from_text]; decide)
        · intro h
          subst h
          (simp [rrset_to_row, built_rrset, rrset_from_text]; decide)

/-- The fully-shortened PUT `PUT /example.com/1.2.3.4`. -/
def partsShort : Parts :=
  { name := "example.com".toList, ttl := none, rdclass := none,
    rdtype := none, rdata := "1.2.3.4".toList }

/-- Witness for C9 at the concrete shortened PUT. -/
theorem C9_put_defaults_witness :
    ∃ row : Row, (put_record [] partsShort).2 = replace_into [] row ∧
      row.name = absolutify partsShort.name ∧
      (partsShort.ttl = none → row.ttl = DEFAULT_TTL) ∧
      (partsShort.rdclass = none → row.rdclass = "IN".toList) ∧
      (partsShort.rdtype = none → row.rdtype = "A".toList) ∧
      (partsShort.name.getLast? = some '.' → absolutify partsShort.name = partsShort.name) ∧
      (partsShort.name.getLast? ≠ some '.' →
        absolutify partsShort.name = partsShort.name ++ ['.']) :=
  C9_put_defaults [] partsShort (by decide)

/-- The RRset carrying a comma inside one rdata value. -/
def rComma : RRset :=
  { name := "t.example.".toList, ttl := 60, rdclass := "IN".toList,
    rdtype := "TXT".toList, rdatas := ["a,b".toList] }

/-- C10: the textual rdata storage round-trips exactly on separator-free
values: if no rdata value of `R` contains `RDATA_SEP` (and `R` holds at
least one record, as every RRset the server builds does), writing the row
and reading it back reproduces the rdata list; while the concrete RRset
`rComma`, whose single value contains a comma, reads back as two values. -/
theorem C10_rdata_separator (R : RRset) (hne : R.rdatas ≠ [])
    (hsep : ∀ v ∈ R.rdatas, RDATA_SEP ∉ v) :
    (row_to_rrset (rrset_to_row R)).rdatas = R.rdatas ∧
    rComma.rdatas = ["a,b".toList] ∧
    (row_to_rrset (rrset_to_row rComma)).rdatas = ["a".toList, "b".toList] ∧
    (row_to_rrset (rrset_to_row rComma)).rdatas.length = 2 ∧
    rComma.rdatas.length = 1 := by
  refine ⟨?_, by decide, by decide, by decide, by decide⟩
  simp only [row_to_rrset, rrset_to_row, rrset_from_text]
  exact List.splitOn_intercalate R.rdatas RDATA_SEP hsep hne

/-- Witness for C10: the comma-free record `rLower` round-trips. -/
theorem C10_rdata_separator_witness :
    (row_to_rrset (rrset_to_row rLower)).rdatas = rLower.rdatas :=
  (C10_rdata_separator rLower (by decide) (by decide)).1

end IHateDNS
